import Mathlib

/-!
Verification of the contrastvisor statistical-sampling and color-decorrelation
pipeline.  The main source file defines `ContrastScreen`, containing
`sumsToCov`, `oncePerTimestamp`, the `canvasRef` initialization callback and
the per-tick `render` closure; `camera.js` defines the frame-watching loop.
Everything below is a shallow embedding of that code.  JavaScript numbers are
modelled as exact rationals extended with the two signed infinities and NaN
(float rounding is not modelled; the properties under study are about control
flow and exact algebraic structure).  The collaborators that live in modules
not shown (`StatSampler.sample` from `stat_sampler.js` and `decorStretcher`
from `la.js`) enter the embedding as opaque parameters of an `Env`, so every
theorem about `render` quantifies over their behavior.
-/

/-- A JavaScript number: an exact rational, one of the two signed infinities,
or NaN.  Signed zero is collapsed onto `0`. -/
inductive JSNum where
  | fin (q : ℚ)
  | posInf
  | negInf
  | nan
deriving DecidableEq

namespace JSNum

/-- JavaScript unary negation. -/
def neg : JSNum → JSNum
  | fin q => fin (-q)
  | posInf => negInf
  | negInf => posInf
  | nan => nan

/-- JavaScript addition. -/
def add : JSNum → JSNum → JSNum
  | nan, _ => nan
  | _, nan => nan
  | fin a, fin b => fin (a + b)
  | fin _, posInf => posInf
  | fin _, negInf => negInf
  | posInf, fin _ => posInf
  | negInf, fin _ => negInf
  | posInf, posInf => posInf
  | negInf, negInf => negInf
  | posInf, negInf => nan
  | negInf, posInf => nan

/-- JavaScript multiplication. -/
def mul : JSNum → JSNum → JSNum
  | nan, _ => nan
  | _, nan => nan
  | fin a, fin b => fin (a * b)
  | fin a, posInf => if 0 < a then posInf else if a < 0 then negInf else nan
  | fin a, negInf => if 0 < a then negInf else if a < 0 then posInf else nan
  | posInf, fin a => if 0 < a then posInf else if a < 0 then negInf else nan
  | negInf, fin a => if 0 < a then negInf else if a < 0 then posInf else nan
  | posInf, posInf => posInf
  | posInf, negInf => negInf
  | negInf, posInf => negInf
  | negInf, negInf => posInf

/-- JavaScript division (division by `0` behaves as division by `+0`). -/
def div : JSNum → JSNum → JSNum
  | nan, _ => nan
  | _, nan => nan
  | fin a, fin b =>
    if b = 0 then (if a = 0 then nan else if 0 < a then posInf else negInf)
    else fin (a / b)
  | fin _, posInf => fin 0
  | fin _, negInf => fin 0
  | posInf, fin a => if 0 ≤ a then posInf else negInf
  | negInf, fin a => if 0 ≤ a then negInf else posInf
  | posInf, _ => nan
  | negInf, _ => nan

instance : Neg JSNum := ⟨neg⟩
instance : Add JSNum := ⟨add⟩
instance : Mul JSNum := ⟨mul⟩
instance : Div JSNum := ⟨div⟩

/-- JavaScript subtraction, `a - b = a + (-b)`. -/
def sub (a b : JSNum) : JSNum := a + (-b)

instance : Sub JSNum := ⟨sub⟩
instance : One JSNum := ⟨fin 1⟩
instance : Zero JSNum := ⟨fin 0⟩

/-- The global `isNaN` predicate applied to a number. -/
def isNaN : JSNum → Bool
  | nan => true
  | _ => false

/-- `Number.isFinite`: true exactly on finite values. -/
def isFinite : JSNum → Bool
  | fin _ => true
  | _ => false

@[simp] theorem fin_add (a b : ℚ) : (fin a) + (fin b) = fin (a + b) := rfl

@[simp] theorem fin_mul (a b : ℚ) : (fin a) * (fin b) = fin (a * b) := rfl

@[simp] theorem fin_neg (a : ℚ) : -(fin a) = fin (-a) := rfl

@[simp] theorem fin_sub (a b : ℚ) : (fin a) - (fin b) = fin (a - b) := by
  show fin (a + -b) = fin (a - b)
  rw [← sub_eq_add_neg]

end JSNum

/-- A `gl-matrix` `mat4`: `m i j` is the entry in row `i`, column `j`. -/
abbrev Mat4 : Type := Fin 4 → Fin 4 → JSNum

/-- A 4×4 matrix of exact rationals. -/
abbrev M4Q : Type := Fin 4 → Fin 4 → ℚ

/-- A 3×3 matrix of exact rationals. -/
abbrev M3Q : Type := Fin 3 → Fin 3 → ℚ

/-- Embed an exact rational 4×4 matrix as a finite `Mat4`. -/
def embM4 (A : M4Q) : Mat4 := fun i j => JSNum.fin (A i j)

/-- Embed an exact rational 4-vector as a finite color vector. -/
def embV4 (v : Fin 4 → ℚ) : Fin 4 → JSNum := fun i => JSNum.fin (v i)

/-- The rational identity matrix. -/
def idM4Q : M4Q := fun i j => if i.val = j.val then 1 else 0

/-- `mat4.create()`: the 4×4 identity. -/
def jsMat4Id : Mat4 := embM4 idM4Q

/-- `mat4.multiply(out, a, b)`: the matrix product `a · b` (so `b` acts
first when the product is applied to a color vector). -/
def jsMat4Mul (a b : Mat4) : Mat4 := fun i j =>
  a i 0 * b 0 j + a i 1 * b 1 j + a i 2 * b 2 j + a i 3 * b 3 j

/-- Apply a `Mat4` to a 4-component color vector. -/
def jsApplyM4 (m : Mat4) (v : Fin 4 → JSNum) : Fin 4 → JSNum := fun i =>
  m i 0 * v 0 + m i 1 * v 1 + m i 2 * v 2 + m i 3 * v 3

/-- `decorTransformation.some(isNaN)`: does some entry satisfy `isNaN`? -/
def mat4SomeNaN (m : Mat4) : Bool := decide (∃ i j, (m i j).isNaN = true)

/-- Are all sixteen entries finite (neither NaN nor an infinity)? -/
def mat4AllFinite (m : Mat4) : Bool := decide (∀ i j, (m i j).isFinite = true)

/-- `sumsToCov` from the source: given the 4×4 accumulated outer-product sums
`s` (as the function `(i, j) ↦ s(i, j)`, with `s(3, 3)` the sample count),
build the 3×3 unbiased covariance matrix with entries
`(s(i, j) - s(i, 3) * s(3, j) / n) / (n - 1)`.  `matrixFrom(3, 3, e)` from
`la.js` is taken to build the matrix with entries `e(i, j)`, which is forced
by its name and call sites.  The definition is polymorphic so that it can be
read both over exact rationals and over `JSNum`. -/
def sumsToCov {γ : Type} [Sub γ] [Mul γ] [Div γ] [One γ] (s : Fin 4 → Fin 4 → γ) :
    Fin 3 → Fin 3 → γ := fun i j =>
  (s i.castSucc j.castSucc - s i.castSucc 3 * s 3 j.castSucc / s 3 3) / (s 3 3 - 1)

/-- The mean extraction performed in `render`:
`means = vec3(sums(0,3)/sums(3,3), sums(1,3)/sums(3,3), sums(2,3)/sums(3,3))`,
read over exact rationals. -/
def meansQ (s : Fin 4 → Fin 4 → ℚ) : Fin 3 → ℚ := fun i => s i.castSucc 3 / s 3 3

/-! ## The frame scheduler: `oncePerTimestamp` -/

/-- The timestamps at which `oncePerTimestamp(f)` invokes `f`, given the
mutable `lastTimestamp` (initially `undefined`, modelled as `none`) and the
list of timestamps carried by the incoming render requests.  Each element of
the result is one invocation of the wrapped function. -/
def executedTimestamps : Option ℚ → List ℚ → List ℚ
  | _, [] => []
  | last, t :: ts =>
    if some t ≠ last then t :: executedTimestamps (some t) ts
    else executedTimestamps last ts

/-- `oncePerTimestamp(f)` run over a list of render requests, threading the
state acted on by the wrapped function `f`. -/
def oncePerTimestampRun {σ : Type} (f : ℚ → σ → σ) : Option ℚ → σ → List ℚ → σ
  | _, st, [] => st
  | last, st, t :: ts =>
    if some t ≠ last then oncePerTimestampRun f (some t) (f t st) ts
    else oncePerTimestampRun f last st ts

/-! ## The camera frame-watching loop (`camera.js`) -/

/-- A video frame's metadata, as consumed by the pipeline. -/
structure Frame where
  width : ℚ
  height : ℚ
deriving DecidableEq

/-- One firing of `videoFrameCallback` from `camera.js`: if the video node is
still current, the per-frame handler (if registered) runs inside
`try`/`catch`, a thrown exception is routed to `errorHandlerRef.current.onError`,
and `watch()` then re-registers the callback.  The result is the error routed
to the error handler (if any) and whether the callback was re-registered. -/
def videoFrameCallback {ε : Type} (currentIsNode : Bool)
    (handler : Option (Frame → Except ε Unit)) (fr : Frame) : Option ε × Bool :=
  if currentIsNode then
    match handler with
    | none => (none, true)
    | some h =>
      match h fr with
      | Except.ok _ => (none, true)
      | Except.error e => (some e, true)
  else (none, false)

/-- The error of a fallible handler result, if any. -/
def exceptError {ε α : Type} : Except ε α → Option ε
  | Except.ok _ => none
  | Except.error e => some e

/-- The frame-watching loop: deliver the listed frames to
`videoFrameCallback` one at a time, continuing only as long as the callback
re-registers itself.  Returns how many frames reached the handler and the
errors routed to the error handler. -/
def watchFrames {ε : Type} (h : Frame → Except ε Unit) : List Frame → ℕ × List ε
  | [] => (0, [])
  | f :: fs =>
    match videoFrameCallback true (some h) f with
    | (eo, true) =>
      let r := watchFrames h fs
      (r.1 + 1, eo.toList ++ r.2)
    | (eo, false) => (1, eo.toList)

/-! ## The render tick (`ContrastScreen`) -/

/-- The screen-placement part of the value returned by the `projection`
prop. -/
structure ToScreen where
  x : ℚ
  y : ℚ
  scale : ℚ

/-- The source crop rectangle returned by the `projection` prop, in image
coordinates. -/
structure ScreenBounds where
  left : ℚ
  right : ℚ
  top : ℚ
  bottom : ℚ

/-- The value returned by applying the `projection` prop to the current
frame's aspect ratio. -/
structure Projection where
  toScreen : ToScreen
  screenBoundsInImage : ScreenBounds
  imageWidth : ℚ
  imageHeight : ℚ

/-- The pending-frame slot written by `onCameraFrame`: frame metadata plus
the opaque camera image handle that gets uploaded to the texture. -/
structure NextFrame (α : Type) where
  frame : Frame
  camera : α

/-- The props unpacked at the start of each `render` call.  `captureSignal`
records whether `captureSignal()` returned a pending capture request. -/
structure Props (α : Type) where
  decor : Option ℚ
  post : Option Mat4
  projection : Option (ℚ → Projection)
  captureSignal : Bool

/-- The mutable state captured by the `render` closure: the texture contents
(`none` while it still holds the initial 1×1 placeholder), `lastFrame`,
`seenCamera`, `lastDecorTransformation`, and the pending-frame slot
`nextFrame.current`. -/
structure RenderState (α : Type) where
  texture : Option α
  lastFrame : Frame
  seenCamera : Bool
  lastDecorTransformation : Mat4
  nextFrame : Option (NextFrame α)

/-- The arguments `render` passes to
`screen.display(colorTransformation, texture, width, height, positionMatrix, resolution)`. -/
structure DisplayCall (α : Type) where
  color : Mat4
  tex : Option α
  srcWidth : ℚ
  srcHeight : ℚ
  position : Mat4
  resolution : Option (ℚ × ℚ)

/-- Everything one `render` tick produces: the new closure state, the draw
call, and whether the statistics sampler was invoked. -/
structure RenderOut (α : Type) where
  state : RenderState α
  display : DisplayCall α
  sampled : Bool

/-- The collaborators `render` calls into but whose code lives in modules not
shown: `statSampler.sample` (returning the array read as
`sums(i, j) = pixels[i*4+j]`) and `decorStretcher` from `la.js`.  All
theorems about `render` quantify over an arbitrary `Env`. -/
structure Env (α : Type) where
  sample : Option α → M3Q → (Fin 4 → Fin 4 → JSNum)
  decorStretcher : (Fin 3 → Fin 3 → JSNum) → (Fin 3 → JSNum) → ℚ → Mat4

/-- Modelled from the spec: `mat4scaleThenTranslate2d` is defined in `la.js`,
which is not among the given source files.  Per its name and §4.4 of the spec
("compute the position transform from the active projection function",
yielding "a screen-placement transform") it is the 4×4 matrix that scales 2d
positions by `scale` and then translates them by `(x, y)`. -/
def mat4scaleThenTranslate2d (x y scale : ℚ) : Mat4 :=
  embM4 (fun i j =>
    if i = 0 then (if j = 0 then scale else if j = 3 then x else 0)
    else if i = 1 then (if j = 1 then scale else if j = 3 then y else 0)
    else if i = j then 1 else 0)

/-- `(bounds.right - bounds.left) / proj.imageWidth` from the source. -/
def widthFrac (p : Projection) : ℚ :=
  (p.screenBoundsInImage.right - p.screenBoundsInImage.left) / p.imageWidth

/-- `(bounds.bottom - bounds.top) / proj.imageHeight` from the source. -/
def heightFrac (p : Projection) : ℚ :=
  (p.screenBoundsInImage.bottom - p.screenBoundsInImage.top) / p.imageHeight

/-- The `mat3` identity, `mat3.create()`. -/
def m3Id : M3Q := fun i j => if i = j then 1 else 0

/-- The sample matrix built from the identity by `mat3.translate` with
`(1/2 + bounds.left/imageWidth, 1/2 + bounds.top/imageHeight)` and then
`mat3.scale` with `(widthFrac, heightFrac)`: the 2d affine map with that
scale and translation. -/
def projSampleMatrix (p : Projection) : M3Q := fun i j =>
  if i = 0 then
    (if j = 0 then widthFrac p
     else if j = 2 then 1 / 2 + p.screenBoundsInImage.left / p.imageWidth else 0)
  else if i = 1 then
    (if j = 1 then heightFrac p
     else if j = 2 then 1 / 2 + p.screenBoundsInImage.top / p.imageHeight else 0)
  else if j = 2 then 1 else 0

/-- The position matrix of a tick: identity unless a projection is supplied,
in which case the projection is applied to the current frame's aspect ratio
and its screen placement is used. -/
def positionMatrixOf {α : Type} (p : Props α) (f : Frame) : Mat4 :=
  match p.projection with
  | none => jsMat4Id
  | some pf =>
    let proj := pf (f.width / f.height)
    mat4scaleThenTranslate2d proj.toScreen.x proj.toScreen.y proj.toScreen.scale

/-- The sample matrix of a tick, fed to `statSampler.sample`. -/
def sampleMatrixOf {α : Type} (p : Props α) (f : Frame) : M3Q :=
  match p.projection with
  | none => m3Id
  | some pf => projSampleMatrix (pf (f.width / f.height))

/-- `displayedWidth`/`displayedHeight` of a tick. -/
def displayedDims {α : Type} (p : Props α) (f : Frame) : ℚ × ℚ :=
  match p.projection with
  | none => (f.width, f.height)
  | some pf =>
    let proj := pf (f.width / f.height)
    (f.width * widthFrac proj, f.height * heightFrac proj)

/-- JavaScript truthiness of the `decor` prop (`undefined` and `0` are
falsy): `if (decor)`. -/
def decorEnabled : Option ℚ → Bool
  | none => false
  | some d => decide (d ≠ 0)

/-- The start of a `render` call: if `nextFrame.current` is set, upload its
image to the texture, promote its metadata to `lastFrame`, set `seenCamera`,
and clear the slot. -/
def consumeFrame {α : Type} (s : RenderState α) : RenderState α :=
  match s.nextFrame with
  | some nf =>
    { s with texture := some nf.camera, lastFrame := nf.frame,
             seenCamera := true, nextFrame := none }
  | none => s

/-- The transform freshly built on a tick with decorrelation on:
`decorStretcher(sumsToCov(sums), means, decor)` where
`sums = statSampler.sample(texture, sampleMatrix)`. -/
def freshDecor {α : Type} (env : Env α) (p : Props α) (s1 : RenderState α) (d : ℚ) : Mat4 :=
  let sums := env.sample s1.texture (sampleMatrixOf p s1.lastFrame)
  env.decorStretcher (sumsToCov sums) (fun i => sums i.castSucc 3 / sums 3 3) d

/-- The decorrelation transform a tick settles on for the draw call: fresh
when its entries pass the `some(isNaN)` check, the held-over
`lastDecorTransformation` when they do not, identity when decorrelation is
off or no camera frame has been seen. -/
def decorUsed {α : Type} (env : Env α) (p : Props α) (s1 : RenderState α) : Mat4 :=
  if s1.seenCamera then
    match p.decor with
    | some d =>
      if d = 0 then jsMat4Id
      else if mat4SomeNaN (freshDecor env p s1 d) then s1.lastDecorTransformation
      else freshDecor env p s1 d
    | none => jsMat4Id
  else jsMat4Id

/-- The value of `lastDecorTransformation` after a tick: overwritten with the
fresh transform exactly when the fresh transform passed the NaN check. -/
def lastDecorNext {α : Type} (env : Env α) (p : Props α) (s1 : RenderState α) : Mat4 :=
  if s1.seenCamera then
    match p.decor with
    | some d =>
      if d = 0 then s1.lastDecorTransformation
      else if mat4SomeNaN (freshDecor env p s1 d) then s1.lastDecorTransformation
      else freshDecor env p s1 d
    | none => s1.lastDecorTransformation
  else s1.lastDecorTransformation

/-- One call of the `render` closure: consume any pending frame, build the
position and color transforms, run the decorrelation block when enabled and a
frame has been seen, compose with `post` (`mat4.multiply(color, post, decor)`),
and issue the draw call. -/
def render {α : Type} (env : Env α) (p : Props α) (s0 : RenderState α) : RenderOut α :=
  let s1 := consumeFrame s0
  let decorT := decorUsed env p s1
  let color :=
    if s1.seenCamera then
      match p.post with
      | some pm => jsMat4Mul pm decorT
      | none => decorT
    else jsMat4Id
  let dims := displayedDims p s1.lastFrame
  { state := { s1 with lastDecorTransformation := lastDecorNext env p s1 },
    display :=
      { color := color, tex := s1.texture, srcWidth := s1.lastFrame.width,
        srcHeight := s1.lastFrame.height, position := positionMatrixOf p s1.lastFrame,
        resolution := if p.captureSignal then some dims else none },
    sampled := s1.seenCamera && decorEnabled p.decor }

/-- The closure state at pipeline start: placeholder 1×1 frame, no camera
seen, `lastDecorTransformation = mat4.create()`, empty pending-frame slot. -/
def initState {α : Type} : RenderState α :=
  { texture := none, lastFrame := { width := 1, height := 1 },
    seenCamera := false, lastDecorTransformation := jsMat4Id, nextFrame := none }

/-- A camera delivery between ticks: `onCameraFrame` overwrites the
pending-frame slot (latest frame wins); with no delivery the slot is left
alone. -/
def deliverFrame {α : Type} (d : Option (NextFrame α)) (s : RenderState α) : RenderState α :=
  match d with
  | some nf => { s with nextFrame := some nf }
  | none => s

/-- Run a sequence of render ticks, each preceded by an optional camera
delivery and carrying the props read at the start of that tick. -/
def runTicks {α : Type} (env : Env α) :
    RenderState α → List (Props α × Option (NextFrame α)) → RenderState α
  | s, [] => s
  | s, (p, d) :: ts => runTicks env (render env p (deliverFrame d s)).state ts

/-- Like `runTicks`, but keep every tick's full output paired with the props
of that tick. -/
def runTrace {α : Type} (env : Env α) :
    RenderState α → List (Props α × Option (NextFrame α)) → List (Props α × RenderOut α)
  | _, [] => []
  | s, (p, d) :: ts =>
    let out := render env p (deliverFrame d s)
    (p, out) :: runTrace env out.state ts

/-! ## Initialization (`canvasRef`) -/

/-- The observable outcome of the `canvasRef` initialization callback. -/
structure InitOutcome where
  contextError : Bool
  capabilityErrors : ℕ
  samplerBitDepth : Option ℕ
  renderRegistered : Bool
deriving DecidableEq

/-- The `canvasRef` callback on a non-null node: obtain a webgl2 context
(throwing if unavailable); set `bitDepth = 32`; if `EXT_color_buffer_float`
is missing, either fall back to `bitDepth = 16` when
`EXT_color_buffer_half_float` exists or report one capability error through
`errorHandler.onError` (a reporting call, after which execution continues);
then construct `new StatSampler(gl, nsamples, bitDepth)` and install the
`render` closure as `renderFrame.current`. -/
def canvasRefInit (glAvailable hasFloat hasHalf : Bool) : InitOutcome :=
  if glAvailable then
    { contextError := false,
      capabilityErrors := if !hasFloat && !hasHalf then 1 else 0,
      samplerBitDepth := some (if hasFloat then 32 else if hasHalf then 16 else 32),
      renderRegistered := true }
  else
    { contextError := true, capabilityErrors := 0,
      samplerBitDepth := none, renderRegistered := false }

/-! ## The decorrelation transform builder, modelled from the spec -/

/-- `L · v` for a 3×3 rational matrix. -/
def applyM3 (L : M3Q) (v : Fin 3 → ℚ) : Fin 3 → ℚ := fun i =>
  L i 0 * v 0 + L i 1 * v 1 + L i 2 * v 2

/-- A 3-color augmented with the constant `1`. -/
def aug3 (v : Fin 3 → ℚ) : Fin 4 → ℚ := fun i =>
  if h : i.val < 3 then v ⟨i.val, h⟩ else 1

/-- The affine 4×4 transform with linear part `L` that fixes `mean`:
linear block `L`, translation column `mean - L · mean`, last row `(0,0,0,1)`. -/
def affineAboutMean (L : M3Q) (mean : Fin 3 → ℚ) : M4Q := fun i j =>
  if hi : i.val < 3 then
    if hj : j.val < 3 then L ⟨i.val, hi⟩ ⟨j.val, hj⟩
    else mean ⟨i.val, hi⟩ - applyM3 L mean ⟨i.val, hi⟩
  else if j.val < 3 then 0 else 1

/-- `R · diag(scale) · Rᵀ`: rotate into the principal axes, rescale each
axis, rotate back. -/
def decorLinearPart (R : M3Q) (scale : Fin 3 → ℚ) : M3Q := fun i j =>
  R i 0 * scale 0 * R j 0 + R i 1 * scale 1 * R j 1 + R i 2 * scale 2 * R j 2

/-- `A · v` for a 4×4 rational matrix. -/
def applyM4Q (A : M4Q) (v : Fin 4 → ℚ) : Fin 4 → ℚ := fun i =>
  A i 0 * v 0 + A i 1 * v 1 + A i 2 * v 2 + A i 3 * v 3

/-- Modelled from the spec: `decorStretcher` is defined in `la.js`, which is
not among the given source files.  Per §4.3 it eigendecomposes the covariance
into a rotation `R` and eigenvalues, builds a diagonal rescale controlled by
the `decor` strength, composes `R · S(decor) · Rᵀ`, and translates so the
mean maps to itself.  The eigendecomposition's rotation `R` and the rescale
rule are abstracted as parameters, so the theorem below covers every
covariance, every rescale rule, and every `decor` strength. -/
def decorStretcherSpec (R : M3Q) (rescale : ℚ → Fin 3 → ℚ) (decor : ℚ)
    (mean : Fin 3 → ℚ) : M4Q :=
  affineAboutMean (decorLinearPart R (rescale decor)) mean

/-! ## Helper lemmas -/

theorem consumeFrame_lastDecor {α : Type} (s : RenderState α) :
    (consumeFrame s).lastDecorTransformation = s.lastDecorTransformation := by
  rcases hs : s.nextFrame with _ | nf <;> simp [consumeFrame, hs]

theorem consumeFrame_of_none {α : Type} (s : RenderState α) (h : s.nextFrame = none) :
    consumeFrame s = s := by
  simp [consumeFrame, h]

theorem render_state_lastDecor {α : Type} (env : Env α) (p : Props α) (s : RenderState α) :
    (render env p s).state.lastDecorTransformation = lastDecorNext env p (consumeFrame s) := rfl

theorem render_sampled {α : Type} (env : Env α) (p : Props α) (s : RenderState α) :
    (render env p s).sampled = ((consumeFrame s).seenCamera && decorEnabled p.decor) := rfl

theorem render_color {α : Type} (env : Env α) (p : Props α) (s : RenderState α) :
    (render env p s).display.color =
      (if (consumeFrame s).seenCamera then
        match p.post with
        | some pm => jsMat4Mul pm (decorUsed env p (consumeFrame s))
        | none => decorUsed env p (consumeFrame s)
       else jsMat4Id) := rfl

theorem deliverFrame_lastDecor {α : Type} (d : Option (NextFrame α)) (s : RenderState α) :
    (deliverFrame d s).lastDecorTransformation = s.lastDecorTransformation := by
  cases d <;> simp [deliverFrame]

theorem mat4SomeNaN_jsMat4Id : mat4SomeNaN jsMat4Id = false := by decide

theorem lastDecorNext_noNaN {α : Type} (env : Env α) (p : Props α) (s1 : RenderState α)
    (h : mat4SomeNaN s1.lastDecorTransformation = false) :
    mat4SomeNaN (lastDecorNext env p s1) = false := by
  unfold lastDecorNext
  rcases s1.seenCamera with _ | _
  · simpa using h
  · rcases p.decor with _ | d
    · simpa using h
    · by_cases h0 : d = 0
      · simpa [h0] using h
      · by_cases hn : mat4SomeNaN (freshDecor env p s1 d) = true
        · simpa [h0, hn] using h
        · simp only [Bool.not_eq_true] at hn
          simp [h0, hn]

theorem runTicks_noNaN {α : Type} (env : Env α)
    (ticks : List (Props α × Option (NextFrame α))) :
    ∀ s : RenderState α, mat4SomeNaN s.lastDecorTransformation = false →
      mat4SomeNaN ((runTicks env s ticks).lastDecorTransformation) = false := by
  induction ticks with
  | nil => intro s h; simpa [runTicks] using h
  | cons td ts ih =>
    intro s h
    obtain ⟨p, d⟩ := td
    show mat4SomeNaN ((runTicks env (render env p (deliverFrame d s)).state ts).lastDecorTransformation) = false
    apply ih
    rw [render_state_lastDecor]
    apply lastDecorNext_noNaN
    rw [consumeFrame_lastDecor, deliverFrame_lastDecor]
    exact h

theorem jsMat4Mul_emb (A B : M4Q) :
    jsMat4Mul (embM4 A) (embM4 B) =
      embM4 (fun i j => A i 0 * B 0 j + A i 1 * B 1 j + A i 2 * B 2 j + A i 3 * B 3 j) := by
  funext i j
  simp [jsMat4Mul, embM4]

theorem fin4_val_zero : ((0 : Fin 4)).val = 0 := rfl

theorem fin4_val_one : ((1 : Fin 4)).val = 1 := rfl

theorem fin4_val_two : ((2 : Fin 4)).val = 2 := rfl

theorem fin4_val_three : ((3 : Fin 4)).val = 3 := rfl

theorem jsMat4Mul_emb_id (A : M4Q) : jsMat4Mul (embM4 A) jsMat4Id = embM4 A := by
  rw [jsMat4Id, jsMat4Mul_emb]
  funext i j
  simp only [embM4]
  congr 1
  fin_cases j <;>
    simp [idM4Q, fin4_val_zero, fin4_val_one, fin4_val_two, fin4_val_three]

theorem jsApplyM4_mul_emb (P D : M4Q) (v : Fin 4 → ℚ) :
    jsApplyM4 (jsMat4Mul (embM4 P) (embM4 D)) (embV4 v) =
      jsApplyM4 (embM4 P) (jsApplyM4 (embM4 D) (embV4 v)) := by
  funext i
  simp only [jsApplyM4, jsMat4Mul, embM4, embV4, JSNum.fin_mul, JSNum.fin_add]
  congr 1
  ring

theorem render_pre_first_frame {α : Type} (env : Env α) (p : Props α) (s : RenderState α)
    (hseen : s.seenCamera = false) (hnext : s.nextFrame = none)
    (hframe : s.lastFrame = { width := 1, height := 1 }) :
    (render env p s).sampled = false ∧
    (render env p s).display.color = jsMat4Id ∧
    (render env p s).display.srcWidth = 1 ∧
    (render env p s).display.srcHeight = 1 ∧
    (render env p s).display.position =
      (match p.projection with
       | none => jsMat4Id
       | some pf =>
         mat4scaleThenTranslate2d (pf 1).toScreen.x (pf 1).toScreen.y (pf 1).toScreen.scale) ∧
    (render env p s).state.seenCamera = false ∧
    (render env p s).state.nextFrame = none ∧
    (render env p s).state.lastFrame = { width := 1, height := 1 } := by
  have hc : consumeFrame s = s := consumeFrame_of_none s hnext
  refine ⟨?_, ?_, ?_, ?_, ?_, ?_, ?_, ?_⟩
  · simp [render, hc, hseen]
  · simp [render, hc, hseen]
  · simp [render, hc, hframe]
  · simp [render, hc, hframe]
  · rcases hp : p.projection with _ | pf
    · simp [render, hc, positionMatrixOf, hp]
    · simp [render, hc, positionMatrixOf, hp, hframe]
  · simp [render, hc, hseen]
  · simp [render, hc, hnext]
  · simp [render, hc, hframe]

theorem chain_ne_executedTimestamps :
    ∀ (l : List ℚ) (last : Option ℚ),
      List.Chain' (fun a b => a ≠ b) (executedTimestamps last l) ∧
      (∀ x, (executedTimestamps last l).head? = some x → some x ≠ last) := by
  intro l
  induction l with
  | nil => intro last; simp [executedTimestamps]
  | cons t ts ih =>
    intro last
    by_cases h : some t ≠ last
    · have hrec := ih (some t)
      have e : executedTimestamps last (t :: ts) = t :: executedTimestamps (some t) ts := by
        simp only [executedTimestamps]
        rw [if_pos h]
      constructor
      · rw [e]
        apply List.chain'_cons'.mpr
        refine ⟨?_, hrec.1⟩
        intro y hy
        have hne2 := hrec.2 y (Option.mem_def.mp hy)
        intro hty
        exact hne2 (by rw [hty])
      · intro x hx
        rw [e] at hx
        simp only [List.head?_cons, Option.some.injEq] at hx
        subst hx
        exact h
    · have e : executedTimestamps last (t :: ts) = executedTimestamps last ts := by
        simp only [executedTimestamps]
        rw [if_neg h]
      rw [e]
      exact ih last

theorem oncePerTimestampRun_foldl {σ : Type} (f : ℚ → σ → σ) :
    ∀ (l : List ℚ) (last : Option ℚ) (st : σ),
      oncePerTimestampRun f last st l =
        (executedTimestamps last l).foldl (fun s t => f t s) st := by
  intro l
  induction l with
  | nil => intro last st; rfl
  | cons t ts ih =>
    intro last st
    by_cases h : some t ≠ last
    · have e1 : oncePerTimestampRun f last st (t :: ts) =
          oncePerTimestampRun f (some t) (f t st) ts := by
        simp only [oncePerTimestampRun]
        rw [if_pos h]
      have e2 : executedTimestamps last (t :: ts) = t :: executedTimestamps (some t) ts := by
        simp only [executedTimestamps]
        rw [if_pos h]
      rw [e1, e2, List.foldl_cons]
      exact ih (some t) (f t st)
    · have e1 : oncePerTimestampRun f last st (t :: ts) = oncePerTimestampRun f last st ts := by
        simp only [oncePerTimestampRun]
        rw [if_neg h]
      have e2 : executedTimestamps last (t :: ts) = executedTimestamps last ts := by
        simp only [executedTimestamps]
        rw [if_neg h]
      rw [e1, e2]
      exact ih last st

theorem fin3_mk_zero (h : (0 : ℕ) < 3) : (⟨0, h⟩ : Fin 3) = 0 := rfl

theorem fin3_mk_one (h : (1 : ℕ) < 3) : (⟨1, h⟩ : Fin 3) = 1 := rfl

theorem fin3_mk_two (h : (2 : ℕ) < 3) : (⟨2, h⟩ : Fin 3) = 2 := rfl

/-! ## The claims -/

/-- C3: for every raw-statistics matrix `s` with sample count `n = s(3,3) > 1`,
the extractor returns `mean_i = s(i,3)/n` for `i` in `0..2` and
`cov[i][j] = (s(i,j) - s(i,3)*s(3,j)/n)/(n-1)` for `i, j` in `0..2` (it is a
pure function, with no other effect), and whenever `s` is symmetric the
returned covariance matrix is symmetric. -/
theorem C3_extractor (s : Fin 4 → Fin 4 → ℚ) (hn : 1 < s 3 3) :
    (∀ i j : Fin 3, sumsToCov s i j =
      (s i.castSucc j.castSucc - s i.castSucc 3 * s 3 j.castSucc / s 3 3) / (s 3 3 - 1)) ∧
    (∀ i : Fin 3, meansQ s i = s i.castSucc 3 / s 3 3) ∧
    ((∀ a b : Fin 4, s a b = s b a) → ∀ i j : Fin 3, sumsToCov s i j = sumsToCov s j i) := by
  refine ⟨fun i j => rfl, fun i => rfl, ?_⟩
  intro hs i j
  simp only [sumsToCov]
  rw [hs i.castSucc j.castSucc, hs i.castSucc 3, hs 3 j.castSucc, mul_comm]

/-- A concrete symmetric raw-statistics matrix with `n = 2`. -/
def sWitness : Fin 4 → Fin 4 → ℚ := fun a b => if a = 3 ∧ b = 3 then 2 else 1

theorem C3_extractor_witness :
    (1 : ℚ) < sWitness 3 3 ∧ sumsToCov sWitness 0 1 = sumsToCov sWitness 1 0 := by
  constructor
  · decide
  · exact (C3_extractor sWitness (by decide)).2.2 (by decide) 0 1

/-- C4: the wrapped compositor executes at most once per render tick: two
requests carrying the same timestamp produce exactly one invocation,
requests with two distinct timestamps produce two invocations, a previously
processed timestamp recurring after a different one in between is executed
again, no two consecutive invocations carry the same timestamp, and the
compositor state is exactly the fold of the compositor over the invoked
timestamps. -/
theorem C4_once_per_timestamp (t u : ℚ) (hne : t ≠ u) :
    (executedTimestamps none [t, t]).length = 1 ∧
    (executedTimestamps none [t, u]).length = 2 ∧
    (executedTimestamps none [t, u, t]).length = 3 ∧
    (∀ l : List ℚ, List.Chain' (fun a b => a ≠ b) (executedTimestamps none l)) ∧
    (∀ (σ : Type) (f : ℚ → σ → σ) (st : σ) (l : List ℚ),
      oncePerTimestampRun f none st l =
        (executedTimestamps none l).foldl (fun s x => f x s) st) := by
  refine ⟨?_, ?_, ?_, ?_, ?_⟩
  · simp [executedTimestamps]
  · simp [executedTimestamps, Option.some.injEq, hne, Ne.symm hne]
  · simp [executedTimestamps, Option.some.injEq, hne, Ne.symm hne]
  · intro l
    exact (chain_ne_executedTimestamps l none).1
  · intro σ f st l
    exact oncePerTimestampRun_foldl f l none st

theorem C4_once_per_timestamp_witness :
    (0 : ℚ) ≠ 1 ∧ (executedTimestamps none [0, 0]).length = 1 ∧
    (executedTimestamps none [0, 1]).length = 2 ∧
    (executedTimestamps none [0, 1, 0]).length = 3 := by
  have h := C4_once_per_timestamp 0 1 (by norm_num)
  exact ⟨by norm_num, h.1, h.2.1, h.2.2.1⟩

/-- C8: under the spec's construction of the decorrelation transform (linear
part `R · S(decor) · Rᵀ` from the eigendecomposition, then translation making
the transform affine about the mean), applying the resulting 4×4 transform to
the mean color augmented with 1 returns it unchanged, for every rotation,
every rescale rule, and every `decor` strength. -/
theorem C8_mean_fixed (R : M3Q) (rescale : ℚ → Fin 3 → ℚ) (decor : ℚ) (mean : Fin 3 → ℚ) :
    applyM4Q (decorStretcherSpec R rescale decor mean) (aug3 mean) = aug3 mean := by
  funext i
  fin_cases i <;>
    simp [applyM4Q, decorStretcherSpec, affineAboutMean, aug3, applyM3,
      fin4_val_zero, fin4_val_one, fin4_val_two, fin4_val_three,
      fin3_mk_zero, fin3_mk_one, fin3_mk_two]

/-- C9: every frame delivered while the video node is current reaches the
per-frame handler, a handler exception is routed to the error handler, and
the callback is re-registered even on exception, so the loop length equals
the number of delivered frames no matter which handler calls fail. -/
theorem C9_frame_loop {ε : Type} (h : Frame → Except ε Unit) (fs : List Frame) :
    (watchFrames h fs).1 = fs.length ∧
    (watchFrames h fs).2 = fs.filterMap (fun f => exceptError (h f)) ∧
    (∀ (f : Frame) (e : ε), h f = Except.error e →
      videoFrameCallback true (some h) f = (some e, true)) := by
  refine ⟨?_, ?_, ?_⟩
  · induction fs with
    | nil => rfl
    | cons f fs ih =>
      cases hf : h f <;> simp [watchFrames, videoFrameCallback, hf, ih]
  · induction fs with
    | nil => rfl
    | cons f fs ih =>
      cases hf : h f <;> simp [watchFrames, videoFrameCallback, exceptError, hf, ih]
  · intro f e hf
    simp [videoFrameCallback, hf]

/-- A handler that throws on frames of width 0 and succeeds otherwise. -/
def failingHandler : Frame → Except ℕ Unit := fun f =>
  if f.width = 0 then Except.error 7 else Except.ok ()

theorem C9_frame_loop_witness :
    (watchFrames failingHandler
      [{ width := 0, height := 0 }, { width := 1, height := 1 }]).1 = 2 ∧
    videoFrameCallback true (some failingHandler) { width := 0, height := 0 } =
      (some 7, true) := by
  constructor
  · exact (C9_frame_loop failingHandler _).1
  · exact (C9_frame_loop failingHandler []).2.2 { width := 0, height := 0 } 7 rfl

/-- C1 (amended): on a tick with decorrelation enabled and a frame seen, if
the transform returned by the decorrelation builder contains a NaN entry
(this is what `decorTransformation.some(isNaN)` tests — infinite entries are
not caught), the draw call uses the last known-good transform (composed with
`post` when supplied) and the stored last known-good transform is unchanged;
it is overwritten exactly when the fresh transform has no NaN entry. -/
theorem C1_nan_guard {α : Type} (env : Env α) (p : Props α) (s : RenderState α) (d : ℚ)
    (hseen : (consumeFrame s).seenCamera = true)
    (hdecor : p.decor = some d) (hd : d ≠ 0) :
    (mat4SomeNaN (freshDecor env p (consumeFrame s) d) = true →
      (render env p s).display.color =
        (match p.post with
         | some pm => jsMat4Mul pm s.lastDecorTransformation
         | none => s.lastDecorTransformation) ∧
      (render env p s).state.lastDecorTransformation = s.lastDecorTransformation) ∧
    (mat4SomeNaN (freshDecor env p (consumeFrame s) d) = false →
      (render env p s).state.lastDecorTransformation =
        freshDecor env p (consumeFrame s) d) := by
  constructor
  · intro hnan
    constructor
    · rw [render_color]
      rcases hp : p.post with _ | pm <;>
        simp [hseen, hp, decorUsed, hdecor, hd, hnan, consumeFrame_lastDecor]
    · rw [render_state_lastDecor]
      simp [lastDecorNext, hseen, hdecor, hd, hnan, consumeFrame_lastDecor]
  · intro hnan
    rw [render_state_lastDecor]
    simp [lastDecorNext, hseen, hdecor, hd, hnan]

/-- A constant environment over a trivial camera-image type: the sampler
returns all-zero sums and the decorrelation builder always returns `m`. -/
def constEnv (m : Mat4) : Env Unit :=
  { sample := fun _ _ => fun _ _ => JSNum.fin 0,
    decorStretcher := fun _ _ _ => m }

/-- A builder output whose `(0,0)` entry is `+Infinity` (and no entry NaN). -/
def infMat : Mat4 := fun i j => if i.val = 0 ∧ j.val = 0 then JSNum.posInf else jsMat4Id i j

/-- A builder output whose `(0,0)` entry is NaN. -/
def nanMat : Mat4 := fun i j => if i.val = 0 ∧ j.val = 0 then JSNum.nan else jsMat4Id i j

/-- Props with decorrelation on (strength 1) and nothing else supplied. -/
def probeProps : Props Unit :=
  { decor := some 1, post := none, projection := none, captureSignal := false }

/-- A camera delivery carrying a 2×2 frame. -/
def probeDelivery : NextFrame Unit :=
  { frame := { width := 2, height := 2 }, camera := () }

/-- The pipeline-start state with one pending camera frame. -/
def probeState : RenderState Unit := { initState with nextFrame := some probeDelivery }

/-- C1 counterexample: with a builder output whose `(0,0)` entry is
`+Infinity` (a non-finite entry, but not NaN), the tick draws with the fresh
transform rather than the last known-good one, and overwrites the stored
last known-good transform (its `(0,0)` entry changes from `1` to
`+Infinity`). -/
theorem C1_counterexample :
    mat4AllFinite (freshDecor (constEnv infMat) probeProps (consumeFrame probeState) 1) =
      false ∧
    (render (constEnv infMat) probeProps probeState).display.color 0 0 = JSNum.posInf ∧
    probeState.lastDecorTransformation 0 0 = JSNum.fin 1 ∧
    (render (constEnv infMat) probeProps probeState).state.lastDecorTransformation 0 0 =
      JSNum.posInf := by
  refine ⟨by decide, by decide, by decide, by decide⟩

/-- C2 (amended): the held-over decorrelation transform is the identity at
pipeline start, after every sequence of render ticks none of its entries is
NaN (entries may still be non-finite: only `isNaN` is checked before the
store), and on a tick whose freshly built transform fails the NaN check it
is reused unchanged, never reset to identity. -/
theorem C2_lastDecor_invariant :
    (∀ (α : Type), (initState (α := α)).lastDecorTransformation = jsMat4Id) ∧
    (∀ (α : Type) (env : Env α) (ticks : List (Props α × Option (NextFrame α))),
      mat4SomeNaN ((runTicks env initState ticks).lastDecorTransformation) = false) ∧
    (∀ (α : Type) (env : Env α) (p : Props α) (s : RenderState α) (d : ℚ),
      p.decor = some d → d ≠ 0 →
      mat4SomeNaN (freshDecor env p (consumeFrame s) d) = true →
      (render env p s).state.lastDecorTransformation = s.lastDecorTransformation) := by
  refine ⟨fun α => rfl, ?_, ?_⟩
  · intro α env ticks
    exact runTicks_noNaN env ticks initState mat4SomeNaN_jsMat4Id
  · intro α env p s d hdecor hd hnan
    rw [render_state_lastDecor]
    simp [lastDecorNext, hdecor, hd, hnan, consumeFrame_lastDecor]

theorem C2_lastDecor_invariant_witness :
    ((1 : ℚ) ≠ 0) ∧
    probeProps.decor = some 1 ∧
    mat4SomeNaN (freshDecor (constEnv nanMat) probeProps (consumeFrame probeState) 1) = true ∧
    (render (constEnv nanMat) probeProps probeState).state.lastDecorTransformation =
      probeState.lastDecorTransformation := by
  refine ⟨by norm_num, rfl, by decide, ?_⟩
  exact C2_lastDecor_invariant.2.2 Unit (constEnv nanMat) probeProps probeState 1 rfl
    (by norm_num) (by decide)

/-- C2 counterexample: from pipeline start, one tick whose builder returns a
matrix with a `+Infinity` entry (and no NaN) leaves the stored transform
with a non-finite entry, so the invariant "every entry is numerically finite
(no NaN and no infinity) after every tick" fails. -/
theorem C2_counterexample :
    (runTicks (constEnv infMat) initState
        [(probeProps, some probeDelivery)]).lastDecorTransformation 0 0 = JSNum.posInf ∧
    JSNum.posInf.isFinite = false := by
  refine ⟨by decide, rfl⟩

/-- C7: on every tick after the first frame has been seen, the color
transform passed to the draw call is `mat4.multiply(color, post, decor)` —
the product with the tick's decorrelation transform as the right factor —
when a post transform is supplied, and the decorrelation transform itself
otherwise; on finite matrices that product means `post` is applied after the
decorrelation transform when the color transform acts on a color vector. -/
theorem C7_post_after_decor {α : Type} (env : Env α) (p : Props α) (s : RenderState α)
    (hseen : (consumeFrame s).seenCamera = true) :
    (render env p s).display.color =
      (match p.post with
       | some pm => jsMat4Mul pm (decorUsed env p (consumeFrame s))
       | none => decorUsed env p (consumeFrame s)) ∧
    (∀ (P D : M4Q) (v : Fin 4 → ℚ),
      jsApplyM4 (jsMat4Mul (embM4 P) (embM4 D)) (embV4 v) =
        jsApplyM4 (embM4 P) (jsApplyM4 (embM4 D) (embV4 v))) := by
  constructor
  · rw [render_color, if_pos hseen]
  · exact jsApplyM4_mul_emb

theorem C7_post_after_decor_witness :
    (consumeFrame probeState).seenCamera = true ∧
    (render (constEnv infMat) probeProps probeState).display.color =
      decorUsed (constEnv infMat) probeProps (consumeFrame probeState) := by
  constructor
  · decide
  · exact (C7_post_after_decor (constEnv infMat) probeProps probeState (by decide)).1

/-- C10: on every tick after the first frame has been seen in which
decorrelation is disabled, the statistics sampler is not invoked, the stored
last known-good decorrelation transform is left unchanged, and the draw
call's color transform is the supplied (finite) post transform, or the
identity when no post transform is supplied. -/
theorem C10_decor_disabled {α : Type} (env : Env α) (p : Props α) (s : RenderState α)
    (hseen : (consumeFrame s).seenCamera = true)
    (hdecor : decorEnabled p.decor = false) :
    (render env p s).sampled = false ∧
    (render env p s).state.lastDecorTransformation = s.lastDecorTransformation ∧
    (p.post = none → (render env p s).display.color = jsMat4Id) ∧
    (∀ P : M4Q, p.post = some (embM4 P) → (render env p s).display.color = embM4 P) := by
  have hdu : decorUsed env p (consumeFrame s) = jsMat4Id := by
    rcases hd : p.decor with _ | d
    · simp [decorUsed, hseen, hd]
    · rw [hd] at hdecor
      simp only [decorEnabled, decide_eq_false_iff_not, not_not] at hdecor
      simp [decorUsed, hseen, hd, hdecor]
  have hln : lastDecorNext env p (consumeFrame s) =
      (consumeFrame s).lastDecorTransformation := by
    rcases hd : p.decor with _ | d
    · simp [lastDecorNext, hseen, hd]
    · rw [hd] at hdecor
      simp only [decorEnabled, decide_eq_false_iff_not, not_not] at hdecor
      simp [lastDecorNext, hseen, hd, hdecor]
  refine ⟨?_, ?_, ?_, ?_⟩
  · rw [render_sampled, hdecor]
    simp
  · rw [render_state_lastDecor, hln, consumeFrame_lastDecor]
  · intro hp
    rw [render_color, if_pos hseen, hp, hdu]
  · intro P hp
    rw [render_color, if_pos hseen, hp, hdu]
    exact jsMat4Mul_emb_id P

/-- Props after disabling decorrelation, with a finite non-identity post. -/
def postProps : Props Unit :=
  { decor := none, post := some (embM4 (fun i j => (i.val : ℚ) + 2 * j.val)),
    projection := none, captureSignal := false }

theorem C10_decor_disabled_witness :
    (consumeFrame probeState).seenCamera = true ∧
    decorEnabled postProps.decor = false ∧
    (render (constEnv infMat) postProps probeState).sampled = false ∧
    (render (constEnv infMat) postProps probeState).display.color =
      embM4 (fun i j => (i.val : ℚ) + 2 * j.val) := by
  refine ⟨by decide, rfl, ?_, ?_⟩
  · exact (C10_decor_disabled (constEnv infMat) postProps probeState (by decide) rfl).1
  · exact (C10_decor_disabled (constEnv infMat) postProps probeState (by decide) rfl).2.2.2
      (fun i j => (i.val : ℚ) + 2 * j.val) rfl

theorem C1_nan_guard_witness :
    mat4SomeNaN (freshDecor (constEnv nanMat) probeProps (consumeFrame probeState) 1) = true ∧
    (render (constEnv nanMat) probeProps probeState).display.color =
      probeState.lastDecorTransformation := by
  constructor
  · decide
  · exact ((C1_nan_guard (constEnv nanMat) probeProps probeState 1 (by decide) rfl
      (by norm_num)).1 (by decide)).1

theorem runTrace_pre_first_frame {α : Type} (env : Env α) :
    ∀ (ticks : List (Props α × Option (NextFrame α))) (s : RenderState α),
      s.seenCamera = false → s.nextFrame = none →
      s.lastFrame = { width := 1, height := 1 } →
      (∀ x ∈ ticks, x.2 = none) →
      ∀ po ∈ runTrace env s ticks,
        po.2.sampled = false ∧
        po.2.display.color = jsMat4Id ∧
        po.2.display.srcWidth = 1 ∧
        po.2.display.srcHeight = 1 ∧
        po.2.display.position =
          (match po.1.projection with
           | none => jsMat4Id
           | some pf =>
             mat4scaleThenTranslate2d (pf 1).toScreen.x (pf 1).toScreen.y
               (pf 1).toScreen.scale) := by
  intro ticks
  induction ticks with
  | nil => intro s _ _ _ _ po hpo; simp [runTrace] at hpo
  | cons td ts ih =>
    intro s h1 h2 h3 hno po hpo
    obtain ⟨p, d⟩ := td
    have hd : d = none := hno (p, d) (List.mem_cons_self _ _)
    subst hd
    have hstep := render_pre_first_frame env p s h1 h2 h3
    have hdel : deliverFrame (none : Option (NextFrame α)) s = s := rfl
    rw [runTrace, hdel] at hpo
    rcases List.mem_cons.mp hpo with heq | htail
    · subst heq
      exact ⟨hstep.1, hstep.2.1, hstep.2.2.1, hstep.2.2.2.1, hstep.2.2.2.2.1⟩
    · exact ih (render env p s).state hstep.2.2.2.2.2.1 hstep.2.2.2.2.2.2.1
        hstep.2.2.2.2.2.2.2 (fun x hx => hno x (List.mem_cons_of_mem _ hx)) po htail

/-- C5 (amended): on every render tick before the first camera frame has
been consumed, the statistics sampler is never invoked and the draw call
receives the identity color transform and the placeholder 1×1 frame
dimensions, regardless of whether decorrelation is enabled; the position
transform is the identity when no projection function is supplied, and when
one is supplied it is the projection's screen placement computed at the
placeholder aspect ratio 1 (not, in general, the identity). -/
theorem C5_pre_first_frame {α : Type} (env : Env α)
    (ticks : List (Props α × Option (NextFrame α)))
    (hno : ∀ x ∈ ticks, x.2 = none) :
    ∀ po ∈ runTrace env initState ticks,
      po.2.sampled = false ∧
      po.2.display.color = jsMat4Id ∧
      po.2.display.srcWidth = 1 ∧
      po.2.display.srcHeight = 1 ∧
      po.2.display.position =
        (match po.1.projection with
         | none => jsMat4Id
         | some pf =>
           mat4scaleThenTranslate2d (pf 1).toScreen.x (pf 1).toScreen.y
             (pf 1).toScreen.scale) :=
  runTrace_pre_first_frame env ticks initState rfl rfl rfl hno

theorem C5_pre_first_frame_witness :
    (render (constEnv infMat) probeProps initState).sampled = false ∧
    (render (constEnv infMat) probeProps initState).display.color = jsMat4Id ∧
    (render (constEnv infMat) probeProps initState).display.srcWidth = 1 ∧
    (render (constEnv infMat) probeProps initState).display.srcHeight = 1 := by
  have hm : (probeProps, render (constEnv infMat) probeProps initState) ∈
      runTrace (constEnv infMat) initState [(probeProps, none)] :=
    List.mem_singleton.mpr rfl
  have h := C5_pre_first_frame (constEnv infMat) [(probeProps, none)]
    (by intro x hx; simp at hx; rw [hx]) _ hm
  exact ⟨h.1, h.2.1, h.2.2.1, h.2.2.2.1⟩

/-- A projection whose screen placement translates by `(1, 0)`. -/
def probeProjection : ℚ → Projection := fun _ =>
  { toScreen := { x := 1, y := 0, scale := 1 },
    screenBoundsInImage := { left := 0, right := 1, top := 0, bottom := 1 },
    imageWidth := 1, imageHeight := 1 }

/-- Props supplying only the translating projection. -/
def probeProjProps : Props Unit :=
  { decor := none, post := none, projection := some probeProjection,
    captureSignal := false }

/-- C5 counterexample: on a tick before any camera frame (pipeline-start
state), with a projection function supplied, the position transform handed
to the draw call is not the identity: its `(0,3)` entry is `1` where the
identity has `0`. -/
theorem C5_counterexample :
    (initState (α := Unit)).seenCamera = false ∧
    (initState (α := Unit)).nextFrame.isNone = true ∧
    (render (constEnv infMat) probeProjProps initState).display.position 0 3 =
      JSNum.fin 1 ∧
    jsMat4Id 0 3 = JSNum.fin 0 := by
  refine ⟨rfl, rfl, by decide, by decide⟩

/-- C6 (amended): when a webgl2 context is available, exactly one capability
error is reported at initialization when neither float color-buffer
extension is available (and none otherwise, in particular never one per
frame); however the pipeline still starts: the sampler is constructed
regardless — with 32-bit accumulation when the float extension is available,
16-bit when only the half-float extension is, and the 32-bit default even
when neither is — and the render closure is installed. -/
theorem C6_capability_fallback (hasFloat hasHalf : Bool) :
    (canvasRefInit true hasFloat hasHalf).capabilityErrors =
      (if hasFloat || hasHalf then 0 else 1) ∧
    (canvasRefInit true hasFloat hasHalf).samplerBitDepth =
      some (if hasFloat then 32 else if hasHalf then 16 else 32) ∧
    (canvasRefInit true hasFloat hasHalf).renderRegistered = true := by
  cases hasFloat <;> cases hasHalf <;> simp [canvasRefInit]

/-- C6 counterexample: with neither float extension available the callback
reports one capability error but still constructs the sampler (with the
32-bit default) and still installs the render closure, so the pipeline does
start. -/
theorem C6_counterexample :
    (canvasRefInit true false false).capabilityErrors = 1 ∧
    (canvasRefInit true false false).samplerBitDepth = some 32 ∧
    (canvasRefInit true false false).renderRegistered = true :=
  ⟨rfl, rfl, rfl⟩
